import Mathlib

/-!
Shallow embedding of the whisper-ui transcription core
(`src/domain/entities/transcription.py`, `src/domain/entities/audio_file.py`,
and the orchestration use cases under `src/application/use_cases/`).

Conventions of the embedding:
- Python exceptions become `Except String` values, the string being `str(e)`.
- `datetime.utcnow()` becomes an explicit `now : Nat` parameter.
- Python `float` durations become `Rat` (the code only compares and copies
  them, never relies on rounding).
- Python `str.strip()` becomes `pyStrip` (structural, so concrete
  instances reduce by `decide`).
- Numeric interpolation inside error-message strings (`f"{x:.2f}"`) is
  abstracted to `toString`; no claim inspects those digits.
-/

namespace WhisperUI

/-- `TranscriptionStatus` enum from `transcription.py`. -/
inductive TranscriptionStatus
  | pending
  | processing
  | completed
  | failed
deriving DecidableEq, Repr

/-- `.value` of the Python enum member. -/
def TranscriptionStatus.value : TranscriptionStatus → String
  | .pending => "pending"
  | .processing => "processing"
  | .completed => "completed"
  | .failed => "failed"

/-- The sentinel text stored by `Transcription.complete` when the engine
returned empty or whitespace-only text. -/
def noSpeechSentinel : String := "(No speech detected)"

/-- Python `str.strip()`: drop leading and trailing whitespace. Implemented
structurally over the character list so that concrete instances reduce. -/
def pyStrip (s : String) : String :=
  String.mk (((s.data.dropWhile Char.isWhitespace).reverse.dropWhile
    Char.isWhitespace).reverse)

/-- The `Transcription` dataclass from `transcription.py`, field for field.
`Option` stands for Python `Optional`/`None`. -/
structure Transcription where
  id : String
  audioFileId : String
  text : Option String
  status : TranscriptionStatus
  language : Option String
  durationSeconds : Rat
  createdAt : Nat
  completedAt : Option Nat
  errorMessage : Option String := none
  model : Option String := none
  processingTimeSeconds : Option Rat := none
  enableLlmEnhancement : Bool := false
  enhancedText : Option String := none
  llmProcessingTimeSeconds : Option Rat := none
  llmEnhancementStatus : Option String := none
  llmErrorMessage : Option String := none
  vadFilterUsed : Bool := false
  enableTashkeel : Bool := false
deriving DecidableEq, Repr

namespace Transcription

/-- `mark_as_processing`: only PENDING transcriptions may move to PROCESSING. -/
def markAsProcessing (t : Transcription) : Except String Transcription :=
  if t.status ≠ TranscriptionStatus.pending then
    .error ("Cannot process transcription in " ++ t.status.value ++ " state. " ++
      "Only PENDING transcriptions can be marked as PROCESSING.")
  else
    .ok { t with status := TranscriptionStatus.processing }

/-- `complete(text, language, duration?, processing_time?)`: legal only from
PROCESSING; empty/whitespace text is replaced by the no-speech sentinel. -/
def complete (t : Transcription) (text language : String)
    (duration : Option Rat := none) (processingTime : Option Rat := none)
    (now : Nat := 0) : Except String Transcription :=
  if t.status ≠ TranscriptionStatus.processing then
    .error ("Cannot complete transcription in " ++ t.status.value ++ " state. " ++
      "Only PROCESSING transcriptions can be completed.")
  else
    -- `if text and text.strip(): self.text = text.strip() else: sentinel`
    let newText := if text ≠ "" ∧ pyStrip text ≠ "" then pyStrip text else noSpeechSentinel
    .ok { t with
      text := some newText
      language := some language
      durationSeconds := duration.getD t.durationSeconds
      processingTimeSeconds :=
        match processingTime with
        | some p => some p
        | none => t.processingTimeSeconds
      status := TranscriptionStatus.completed
      completedAt := some now
      errorMessage := none }

/-- `fail(error_message)`: requires a non-empty message; no status guard. -/
def fail (t : Transcription) (errorMessage : String) (now : Nat := 0) :
    Except String Transcription :=
  if errorMessage = "" ∨ pyStrip errorMessage = "" then
    .error "Error message cannot be empty"
  else
    .ok { t with
      status := TranscriptionStatus.failed
      errorMessage := some (pyStrip errorMessage)
      completedAt := some now }

/-- `can_be_enhanced()` from `transcription.py`. -/
def canBeEnhanced (t : Transcription) : Bool :=
  t.enableLlmEnhancement
    && decide (t.status = TranscriptionStatus.completed)
    && (match t.text with
        | none => false
        | some s => decide (pyStrip s ≠ "") && decide (s ≠ noSpeechSentinel))
    && (decide (t.llmEnhancementStatus = none)
        || decide (t.llmEnhancementStatus = some "failed"))

/-- Helper mirroring Python `str(bool)`. -/
def pyBool : Bool → String
  | true => "True"
  | false => "False"

/-- The message of the `ValueError` raised by `mark_llm_processing`. -/
def cannotEnhanceMsg (t : Transcription) : String :=
  "Transcription cannot be enhanced. " ++
    "enable_llm_enhancement=" ++ pyBool t.enableLlmEnhancement ++ ", " ++
    "status=" ++ t.status.value ++ ", " ++
    "text=" ++ (if t.text = none ∨ t.text = some "" then "empty" else "present") ++ ", " ++
    "llm_enhancement_status=" ++ (t.llmEnhancementStatus.getD "None")

/-- `mark_llm_processing`: guarded by `can_be_enhanced()`. -/
def markLlmProcessing (t : Transcription) : Except String Transcription :=
  if ¬ t.canBeEnhanced then
    .error t.cannotEnhanceMsg
  else
    .ok { t with llmEnhancementStatus := some "processing" }

/-- `complete_llm_enhancement(enhanced_text, processing_time)`. -/
def completeLlmEnhancement (t : Transcription) (enhancedText : String)
    (processingTime : Rat) : Except String Transcription :=
  if t.llmEnhancementStatus ≠ some "processing" then
    .error ("Cannot complete LLM enhancement in " ++
      (t.llmEnhancementStatus.getD "None") ++ " state. " ++
      "Only processing enhancements can be completed.")
  else if enhancedText = "" ∨ pyStrip enhancedText = "" then
    .error "Enhanced text cannot be empty"
  else
    .ok { t with
      enhancedText := some (pyStrip enhancedText)
      llmProcessingTimeSeconds := some processingTime
      llmEnhancementStatus := some "completed"
      llmErrorMessage := none }

/-- `fail_llm_enhancement(error_message)`: requires a non-empty message,
touches only the two LLM bookkeeping fields. -/
def failLlmEnhancement (t : Transcription) (errorMessage : String) :
    Except String Transcription :=
  if errorMessage = "" ∨ pyStrip errorMessage = "" then
    .error "Error message cannot be empty"
  else
    .ok { t with
      llmEnhancementStatus := some "failed"
      llmErrorMessage := some (pyStrip errorMessage) }

end Transcription

/-- Supported MIME types from `audio_file.py`. -/
def supportedAudioTypes : List String :=
  ["audio/mpeg", "audio/mp3", "audio/wav", "audio/x-wav", "audio/wave",
   "audio/mp4", "audio/x-m4a", "audio/m4a", "audio/ogg", "audio/flac",
   "audio/x-flac", "audio/webm"]

/-- The `AudioFile` dataclass from `audio_file.py`. -/
structure AudioFile where
  id : String
  originalFilename : String
  filePath : String
  fileSizeBytes : Int
  mimeType : String
  durationSeconds : Option Rat
  uploadedAt : Nat
deriving DecidableEq, Repr

namespace AudioFile

/-- `validate_file_type()`: mime type must be in the supported set. -/
def validateFileType (a : AudioFile) : Except String Unit :=
  if a.mimeType ∉ supportedAudioTypes then
    .error ("Unsupported file type: " ++ a.mimeType ++ ". Supported types: " ++
      String.intercalate ", " supportedAudioTypes)
  else
    .ok ()

/-- `validate_file_size(max_size_mb)`: size must be positive and within the
ceiling of `max_size_mb * 1024 * 1024` bytes. -/
def validateFileSize (a : AudioFile) (maxSizeMb : Int := 25) : Except String Unit :=
  let maxBytes := maxSizeMb * 1024 * 1024
  if a.fileSizeBytes ≤ 0 then
    .error "File size must be greater than 0"
  else if a.fileSizeBytes > maxBytes then
    .error ("File size (" ++ toString a.fileSizeBytes ++ "B) exceeds maximum " ++
      "allowed size (" ++ toString maxSizeMb ++ "MB)")
  else
    .ok ()

/-- `validate_duration(max_duration_seconds)`: duration must be measured,
positive, and within the ceiling. -/
def validateDuration (a : AudioFile) (maxDurationSeconds : Int := 30) :
    Except String Unit :=
  match a.durationSeconds with
  | none => .error "Audio duration must be calculated before validation"
  | some d =>
    if d ≤ 0 then
      .error "Audio duration must be greater than 0"
    else if d > (maxDurationSeconds : Rat) then
      .error ("Audio duration (" ++ toString d ++ "s) exceeds maximum " ++
        "allowed duration (" ++ toString maxDurationSeconds ++ "s)")
    else
      .ok ()

end AudioFile

/-- The fields of `AudioUploadDTO` that `TranscribeAudioUseCase.execute`
reads (the router populates all of them from the request). -/
structure AudioUploadDTO where
  filename : String
  fileSize : Int
  mimeType : String
  language : Option String := none
  model : Option String := some "base"
  enableLlmEnhancement : Bool := false
  vadFilter : Bool := false
  enableTashkeel : Bool := false
deriving DecidableEq, Repr

/-- Result dictionary of the Speech Recognition Port's `transcribe`. -/
structure SpeechResult where
  text : String
  language : String
  duration : Option Rat := none
deriving DecidableEq, Repr

/-- Persistent state visible to the orchestrators: the stored blobs and the
two repository tables. -/
structure World where
  files : List String
  audioFiles : List AudioFile
  transcriptions : List Transcription
deriving DecidableEq, Repr

/-- `transcription_repo.update`: replace the row with the same id. -/
def World.updateTranscription (w : World) (t : Transcription) : World :=
  { w with transcriptions :=
      w.transcriptions.map (fun x => if x.id = t.id then t else x) }

/-- Behaviour of the external collaborators during one Transcribe run:
the storage path chosen by `save`, whether `exists` sees the file, what
`get_audio_duration` and `transcribe` return, and the LLM port's
`enhance_transcription` as a function of (text, language, enable_tashkeel).
An `Except.error s` models an exception with `str(e) = s`; for
`get_audio_duration` the flag says whether the exception is a `ValueError`
(re-raised as-is) or generic (wrapped). -/
structure TranscribeEnv where
  savePath : String
  existsAfterSave : Bool
  getAudioDuration : Except (Bool × String) Rat
  transcribe : Except String SpeechResult
  llm : String → Option String → Bool → Except String String

/-- Python `x or default` on an optional float (None and 0.0 are falsy). -/
def pyOrRat (x : Option Rat) (default : Rat) : Rat :=
  match x with
  | none => default
  | some v => if v = 0 then default else v

/-- Python `x or default` on an optional string (None and "" are falsy). -/
def pyOrStr (x : Option String) (default : String) : String :=
  match x with
  | none => default
  | some s => if s = "" then default else s

/-- The `try` block of Step 7 in `TranscribeAudioUseCase.execute`, together
with its two `except` handlers. Returns the updated world plus either the
entity as left by the block (`ok`, possibly FAILED via the outer handler) or
an exception escaping the block (`error` — only possible when `fail` or
`fail_llm_enhancement` itself raises on an empty message). -/
def transcribeTryBlock (w : World) (t0 : Transcription) (env : TranscribeEnv)
    (enableLlm : Bool) (now : Nat) (procTime llmProcTime : Rat) :
    World × Except String Transcription :=
  match t0.markAsProcessing with
  | .error e => (w, t0.fail e now)
  | .ok t1 =>
    let w1 := w.updateTranscription t1
    match env.transcribe with
    | .error e => (w1, t1.fail e now)
    | .ok res =>
      match t1.complete res.text res.language none (some procTime) now with
      | .error e => (w1, t1.fail e now)
      | .ok t2 =>
        if enableLlm then
          match t2.markLlmProcessing with
          | .error e =>
            match t2.failLlmEnhancement e with
            | .ok t3 => (w1, .ok t3)
            | .error e2 => (w1, t2.fail e2 now)
          | .ok t3 =>
            let w2 := w1.updateTranscription t3
            -- the code calls `enhance_transcription(text=..., language=...)`,
            -- so `enable_tashkeel` takes its declared default `False`
            match env.llm (t3.text.getD "") t3.language false with
            | .error e =>
              match t3.failLlmEnhancement e with
              | .ok t4 => (w2, .ok t4)
              | .error e2 => (w2, t3.fail e2 now)
            | .ok enhanced =>
              match t3.completeLlmEnhancement enhanced llmProcTime with
              | .ok t4 => (w2, .ok t4)
              | .error e =>
                match t3.failLlmEnhancement e with
                | .ok t4 => (w2, .ok t4)
                | .error e2 => (w2, t3.fail e2 now)
        else (w1, .ok t2)

/-- `TranscribeAudioUseCase.execute`. `audioId`/`transId` stand for the two
`uuid4()` draws, `procTime`/`llmProcTime` for the measured wall times. -/
def executeTranscribe (w : World) (env : TranscribeEnv) (dto : AudioUploadDTO)
    (audioId transId : String) (now : Nat) (procTime llmProcTime : Rat)
    (maxFileSizeMb : Int := 25) (maxDurationSeconds : Int := 30) :
    World × Except String Transcription :=
  -- Step 1: audio file entity (file_path set after storage)
  let audioFile : AudioFile :=
    { id := audioId, originalFilename := dto.filename, filePath := ""
      fileSizeBytes := dto.fileSize, mimeType := dto.mimeType
      durationSeconds := none, uploadedAt := now }
  -- Step 2: validation
  match audioFile.validateFileType with
  | .error e => (w, .error e)
  | .ok _ =>
  match audioFile.validateFileSize maxFileSizeMb with
  | .error e => (w, .error e)
  | .ok _ =>
  -- Step 3: store to disk
  let filePath := env.savePath
  let w1 : World := { w with files := w.files ++ [filePath] }
  let audioFile1 := { audioFile with filePath := filePath }
  -- Step 3.5: extract duration and validate; on any failure delete the blob
  -- and propagate a ValueError
  if ¬ env.existsAfterSave then
    ({ w1 with files := w1.files.erase filePath },
      .error ("File was not saved properly: " ++ filePath))
  else
  match env.getAudioDuration with
  | .error (isValueError, msg) =>
    ({ w1 with files := w1.files.erase filePath },
      .error (if isValueError then msg
        else "Failed to extract audio duration from " ++ filePath ++ ": " ++ msg))
  | .ok duration =>
  let audioFile2 := { audioFile1 with durationSeconds := some duration }
  match audioFile2.validateDuration maxDurationSeconds with
  | .error e => ({ w1 with files := w1.files.erase filePath }, .error e)
  | .ok _ =>
  -- Step 4: persist audio file entity
  let w2 : World := { w1 with audioFiles := w1.audioFiles ++ [audioFile2] }
  -- Step 5: transcription entity (note: `enable_tashkeel` is never set here)
  let t0 : Transcription :=
    { id := transId, audioFileId := audioFile2.id, text := none
      status := TranscriptionStatus.pending, language := dto.language
      durationSeconds := pyOrRat audioFile2.durationSeconds 0
      createdAt := now, completedAt := none, errorMessage := none
      model := some (pyOrStr dto.model "base")
      enableLlmEnhancement := dto.enableLlmEnhancement
      vadFilterUsed := dto.vadFilter }
  -- Step 6: persist transcription (PENDING)
  let w3 : World := { w2 with transcriptions := w2.transcriptions ++ [t0] }
  -- Steps 7 and 8
  match transcribeTryBlock w3 t0 env dto.enableLlmEnhancement now procTime llmProcTime with
  | (w4, .ok t) => (w4.updateTranscription t, .ok t)
  | (w4, .error e) => (w4, .error e)

/-- `EnhanceTranscriptionUseCase.execute`. `llm` is the LLM Enhancement
Port's `enhance_transcription` as a function of (text, language,
enable_tashkeel); `llmProcTime` the measured wall time. -/
def executeEnhance (w : World)
    (llm : String → Option String → Bool → Except String String)
    (transcriptionId : String) (llmProcTime : Rat) :
    World × Except String Transcription :=
  -- Step 1: get transcription
  match w.transcriptions.find? (fun t => t.id = transcriptionId) with
  | none => (w, .error ("Transcription " ++ transcriptionId ++ " not found"))
  | some t =>
  -- Step 2: validate can be enhanced
  if ¬ t.canBeEnhanced then
    (w, .error ("Transcription cannot be enhanced. Reasons: " ++
      "LLM enabled=" ++ Transcription.pyBool t.enableLlmEnhancement ++ ", " ++
      "status=" ++ t.status.value ++ ", " ++
      "has_text=" ++ Transcription.pyBool (t.text ≠ none) ++ ", " ++
      "enhancement_status=" ++ (t.llmEnhancementStatus.getD "None")))
  else
  -- Step 3: mark as processing
  match t.markLlmProcessing with
  | .error e => (w, .error e)
  | .ok t1 =>
  let w1 := w.updateTranscription t1
  -- Step 4/5: enhancement, with the error path recorded on the entity;
  -- `enable_tashkeel` again takes its declared default `False`
  let step5 : Except String Transcription :=
    match llm (t1.text.getD "") t1.language false with
    | .ok res =>
      match t1.completeLlmEnhancement res llmProcTime with
      | .ok t2 => .ok t2
      | .error e => t1.failLlmEnhancement e
    | .error e => t1.failLlmEnhancement e
  match step5 with
  | .error e2 => (w1, .error e2)
  | .ok t2 => (w1.updateTranscription t2, .ok t2)

/-- External collaborators for one Retranscribe run. -/
structure RetranscribeEnv where
  transcribe : Except String SpeechResult
  llm : String → Option String → Bool → Except String String

/-- The `try` block of Step 5 in `RetranscribeAudioUseCase.execute`, with
its handlers, mirroring `transcribeTryBlock` but passing the duration
fallback chain `result.get('duration') or audio_file.duration_seconds or 0.0`
to `complete`. -/
def retranscribeTryBlock (w : World) (t0 : Transcription)
    (env : RetranscribeEnv) (audioFile : AudioFile) (enableLlm : Bool)
    (now : Nat) (procTime llmProcTime : Rat) :
    World × Except String Transcription :=
  match t0.markAsProcessing with
  | .error e => (w, t0.fail e now)
  | .ok t1 =>
    let w1 := w.updateTranscription t1
    match env.transcribe with
    | .error e => (w1, t1.fail e now)
    | .ok res =>
      let dur : Rat := pyOrRat res.duration (pyOrRat audioFile.durationSeconds 0)
      match t1.complete res.text res.language (some dur) (some procTime) now with
      | .error e => (w1, t1.fail e now)
      | .ok t2 =>
        if enableLlm then
          match t2.markLlmProcessing with
          | .error e =>
            match t2.failLlmEnhancement e with
            | .ok t3 => (w1, .ok t3)
            | .error e2 => (w1, t2.fail e2 now)
          | .ok t3 =>
            let w2 := w1.updateTranscription t3
            match env.llm (t3.text.getD "") t3.language false with
            | .error e =>
              match t3.failLlmEnhancement e with
              | .ok t4 => (w2, .ok t4)
              | .error e2 => (w2, t3.fail e2 now)
            | .ok enhanced =>
              match t3.completeLlmEnhancement enhanced llmProcTime with
              | .ok t4 => (w2, .ok t4)
              | .error e =>
                match t3.failLlmEnhancement e with
                | .ok t4 => (w2, .ok t4)
                | .error e2 => (w2, t3.fail e2 now)
        else (w1, .ok t2)

/-- `RetranscribeAudioUseCase.execute`. -/
def executeRetranscribe (w : World) (env : RetranscribeEnv)
    (audioFileId model : String) (language : Option String)
    (enableLlm : Bool) (newId : String) (now : Nat)
    (procTime llmProcTime : Rat) : World × Except String Transcription :=
  -- Step 1: verify audio file exists
  match w.audioFiles.find? (fun a => a.id = audioFileId) with
  | none => (w, .error ("Audio file " ++ audioFileId ++ " not found"))
  | some audioFile =>
  -- Step 2: request-level memoization on (audio_file_id, model, COMPLETED)
  let existing := w.transcriptions.filter (fun t => t.audioFileId = audioFileId)
  match existing.find? (fun t =>
      t.model = some model ∧ t.status = TranscriptionStatus.completed) with
  | some tr => (w, .ok tr)
  | none =>
  -- Step 3: new transcription entity
  let t0 : Transcription :=
    { id := newId, audioFileId := audioFile.id, text := none
      status := TranscriptionStatus.pending, language := language
      durationSeconds := pyOrRat audioFile.durationSeconds 0
      createdAt := now, completedAt := none, errorMessage := none
      model := some model, enableLlmEnhancement := enableLlm }
  -- Step 4: persist
  let w1 : World := { w with transcriptions := w.transcriptions ++ [t0] }
  -- Steps 5 and 6
  match retranscribeTryBlock w1 t0 env audioFile enableLlm now procTime llmProcTime with
  | (w2, .ok t) => (w2.updateTranscription t, .ok t)
  | (w2, .error e) => (w2, .error e)

/-- `DeleteTranscriptionUseCase.execute`. `blobDeleteFails` says whether
`file_storage.delete` raises on the audio blob; that exception is logged
and swallowed by the use case. -/
def executeDeleteTranscription (w : World) (blobDeleteFails : Bool)
    (transcriptionId : String) : World × Except String Bool :=
  match w.transcriptions.find? (fun t => t.id = transcriptionId) with
  | none => (w, .ok false)
  | some t =>
  -- all transcriptions for this audio file, fetched before the delete
  let allTranscriptions :=
    w.transcriptions.filter (fun x => x.audioFileId = t.audioFileId)
  -- delete the transcription row first
  let w1 : World :=
    { w with transcriptions := w.transcriptions.filter (fun x => x.id ≠ transcriptionId) }
  -- only delete the audio file if this was the last transcription
  if allTranscriptions.length = 1 then
    match w1.audioFiles.find? (fun a => a.id = t.audioFileId) with
    | some audioFile =>
      let w2 : World :=
        if audioFile.filePath ≠ "" then
          if blobDeleteFails then w1  -- warning logged, not fatal
          else { w1 with files := w1.files.erase audioFile.filePath }
        else w1
      ({ w2 with audioFiles := w2.audioFiles.filter (fun a => a.id ≠ t.audioFileId) },
        .ok true)
    | none => (w1, .ok true)
  else
    (w1, .ok true)

/-! ### Helper lemmas and sample data -/

/-- A completed transcription with real text, used as concrete input by
several witnesses. -/
def sampleCompleted : Transcription :=
  { id := "t1", audioFileId := "a1", text := some "hello world"
    status := TranscriptionStatus.completed, language := some "en"
    durationSeconds := 5, createdAt := 0, completedAt := some 1
    model := some "base", enableLlmEnhancement := true }

/-- An empty persistent state. -/
def emptyWorld : World := { files := [], audioFiles := [], transcriptions := [] }

/-- A well-formed upload request with LLM enhancement (and Tashkeel)
requested. -/
def sampleDto : AudioUploadDTO :=
  { filename := "clip.wav", fileSize := 1000, mimeType := "audio/wav"
    language := some "en", model := some "base"
    enableLlmEnhancement := true, vadFilter := false, enableTashkeel := true }

/-- A run in which storage and duration extraction succeed and the engine
returns whitespace-only text. -/
def silentEnv : TranscribeEnv :=
  { savePath := "uploads/clip.wav", existsAfterSave := true
    getAudioDuration := .ok 10
    transcribe := .ok { text := "   ", language := "en" }
    llm := fun _ _ _ => .ok "enhanced" }

/-- An LLM port whose answer reveals the `enable_tashkeel` value it was
invoked with. -/
def tashkeelProbe : String → Option String → Bool → Except String String :=
  fun _ _ enableTashkeel =>
    .ok (if enableTashkeel then "WITH TASHKEEL" else "WITHOUT TASHKEEL")

/-- An enhanceable transcription whose `enable_tashkeel` flag is set. -/
def tashkeelEntity : Transcription :=
  { sampleCompleted with enableTashkeel := true }

/-- A stored audio file row matching `sampleCompleted.audioFileId`. -/
def sampleAudioFile : AudioFile :=
  { id := "a1", originalFilename := "clip.wav", filePath := "uploads/clip.wav"
    fileSizeBytes := 1000, mimeType := "audio/wav"
    durationSeconds := some 10, uploadedAt := 0 }

/-- A retranscription run whose engine succeeds. -/
def sampleRetransEnv : RetranscribeEnv :=
  { transcribe := .ok { text := "hi", language := "en", duration := none }
    llm := fun _ _ _ => .ok "x" }

/-- State in which audio file `a1` already has a COMPLETED transcription
with model `base`. -/
def memoWorld : World :=
  { files := ["uploads/clip.wav"], audioFiles := [sampleAudioFile]
    transcriptions := [sampleCompleted] }

/-- State in which audio file `a1` has no transcriptions yet. -/
def freshWorld : World :=
  { files := ["uploads/clip.wav"], audioFiles := [sampleAudioFile]
    transcriptions := [] }

/-- The transcription produced by retranscribing `a1` with model `base`
in `freshWorld` under `sampleRetransEnv`. -/
def retransResult : Transcription :=
  { id := "u1", audioFileId := "a1", text := some "hi"
    status := TranscriptionStatus.completed, language := some "en"
    durationSeconds := 10, createdAt := 0, completedAt := some 0
    errorMessage := none, model := some "base", processingTimeSeconds := some 1 }

/-- The fields that identify a transcription row and its memoization key:
id, parent audio file, and model. All entity transition methods preserve
them. -/
def SameKey (a b : Transcription) : Prop :=
  a.id = b.id ∧ a.audioFileId = b.audioFileId ∧ a.model = b.model

lemma trim_ne_iff (s : String) : (s ≠ "" ∧ pyStrip s ≠ "") ↔ pyStrip s ≠ "" := by
  constructor
  · exact fun h => h.2
  · intro h
    refine ⟨?_, h⟩
    intro he
    subst he
    exact h rfl

lemma mem_dropWhile_of_not (p : Char → Bool) (l : List Char) (c : Char)
    (hm : c ∈ l) (hc : p c = false) : c ∈ l.dropWhile p := by
  induction l with
  | nil => cases hm
  | cons a l ih =>
    rw [List.dropWhile_cons]
    by_cases hp : p a
    · simp only [hp, if_true]
      rcases List.mem_cons.mp hm with h | h
      · subst h
        rw [hp] at hc
        cases hc
      · exact ih h
    · simp only [hp, if_false]
      exact hm

/-- A string containing any non-whitespace character strips to a non-empty
string. -/
lemma pyStrip_ne_empty_of_mem (s : String) (c : Char)
    (hm : c ∈ s.data) (hw : c.isWhitespace = false) : pyStrip s ≠ "" := by
  intro h
  have hdata : (pyStrip s).data = [] := by rw [h]
  have h1 : c ∈ s.data.dropWhile Char.isWhitespace :=
    mem_dropWhile_of_not _ _ _ hm hw
  have h2 : c ∈ (s.data.dropWhile Char.isWhitespace).reverse :=
    List.mem_reverse.mpr h1
  have h3 : c ∈ (s.data.dropWhile Char.isWhitespace).reverse.dropWhile
      Char.isWhitespace :=
    mem_dropWhile_of_not _ _ _ h2 hw
  have h4 : c ∈ ((s.data.dropWhile Char.isWhitespace).reverse.dropWhile
      Char.isWhitespace).reverse :=
    List.mem_reverse.mpr h3
  rw [show (pyStrip s).data =
      ((s.data.dropWhile Char.isWhitespace).reverse.dropWhile
        Char.isWhitespace).reverse from rfl] at hdata
  rw [hdata] at h4
  cases h4

lemma cannotEnhanceMsg_ne (t : Transcription) :
    Transcription.cannotEnhanceMsg t ≠ "" ∧
    pyStrip (Transcription.cannotEnhanceMsg t) ≠ "" := by
  have hmem : 'T' ∈ (Transcription.cannotEnhanceMsg t).data := by
    unfold Transcription.cannotEnhanceMsg
    simp only [String.data_append, List.mem_append]
    have h0 : 'T' ∈ ("Transcription cannot be enhanced. ").data := by decide
    tauto
  constructor
  · intro h
    rw [h] at hmem
    cases hmem
  · exact pyStrip_ne_empty_of_mem _ 'T' hmem (by decide)

lemma erase_append_singleton (l : List String) (p : String) (h : p ∉ l) :
    (l ++ [p]).erase p = l := by
  induction l with
  | nil => simp
  | cons a l ih =>
    have h1 : p ≠ a := fun he => h (by simp [he])
    have h2 : p ∉ l := fun hm => h (List.mem_cons_of_mem _ hm)
    rw [List.cons_append, List.erase_cons_tail, ih h2]
    simp [Ne.symm h1]

lemma markLlmProcessing_of_cannot (t : Transcription)
    (h : t.canBeEnhanced = false) :
    t.markLlmProcessing = .error t.cannotEnhanceMsg := by
  simp [Transcription.markLlmProcessing, h]

lemma failLlmEnhancement_cannotEnhanceMsg (u t : Transcription) :
    u.failLlmEnhancement (Transcription.cannotEnhanceMsg t) =
      Except.ok
        { u with
          llmEnhancementStatus := some "failed",
          llmErrorMessage := some (pyStrip (Transcription.cannotEnhanceMsg t)) } := by
  have h := cannotEnhanceMsg_ne t
  simp [Transcription.failLlmEnhancement, h.1, h.2]

/-! ### Claims about the Transcription entity -/

/-- C2. `can_be_enhanced()` is true iff the enhancement flag is set, the
status is COMPLETED, the text is present, non-empty after stripping, and
not the no-speech sentinel, and the enhancement sub-status is None or
'failed'; in particular it is false whenever the flag is false. -/
theorem canBeEnhanced_iff (t : Transcription) :
    (t.canBeEnhanced = true ↔
      (t.enableLlmEnhancement = true ∧
       t.status = TranscriptionStatus.completed ∧
       (∃ s, t.text = some s ∧ pyStrip s ≠ "" ∧ s ≠ noSpeechSentinel) ∧
       (t.llmEnhancementStatus = none ∨ t.llmEnhancementStatus = some "failed"))) ∧
    (t.enableLlmEnhancement = false → t.canBeEnhanced = false) := by
  constructor
  · rcases ht : t.text with _ | s <;>
      simp [Transcription.canBeEnhanced, ht] <;> tauto
  · intro h
    rcases ht : t.text with _ | s <;>
      simp [Transcription.canBeEnhanced, ht, h]

/-- Witness for C2 at a concrete entity with the flag off. -/
theorem canBeEnhanced_iff_witness :
    ({ sampleCompleted with enableLlmEnhancement := false } : Transcription).canBeEnhanced
      = false :=
  (canBeEnhanced_iff _).2 rfl

/-- C3. `complete` succeeds exactly from PROCESSING: from any other status
it raises; from PROCESSING it stores the stripped text (or the sentinel for
empty/whitespace text), the language, the optional duration and processing
time, sets status COMPLETED and `completed_at = now`, and clears
`error_message`. -/
theorem complete_spec (t : Transcription) (text language : String)
    (duration processingTime : Option Rat) (now : Nat) :
    (t.status ≠ TranscriptionStatus.processing →
      ∃ e, t.complete text language duration processingTime now = .error e) ∧
    (t.status = TranscriptionStatus.processing →
      t.complete text language duration processingTime now = .ok { t with
        text := some (if pyStrip text = "" then noSpeechSentinel else pyStrip text)
        language := some language
        durationSeconds := duration.getD t.durationSeconds
        processingTimeSeconds :=
          match processingTime with
          | some p => some p
          | none => t.processingTimeSeconds
        status := TranscriptionStatus.completed
        completedAt := some now
        errorMessage := none }) := by
  constructor
  · intro h
    unfold Transcription.complete
    rw [if_pos h]
    exact ⟨_, rfl⟩
  · intro h
    by_cases htrim : pyStrip text = ""
    · have hne : ¬ (text ≠ "" ∧ pyStrip text ≠ "") := by
        intro hc
        exact hc.2 htrim
      simp [Transcription.complete, h, hne, htrim]
      rcases processingTime with _ | p <;> rfl
    · have : text ≠ "" ∧ pyStrip text ≠ "" := (trim_ne_iff text).2 htrim
      simp [Transcription.complete, h, this, htrim]
      rcases processingTime with _ | p <;> rfl

/-- Witness for C3: completing a PROCESSING transcription with whitespace
text stores the sentinel. -/
theorem complete_spec_witness :
    ({ sampleCompleted with status := TranscriptionStatus.processing } :
        Transcription).complete "   " "en" none none 3 =
      .ok { sampleCompleted with
        status := TranscriptionStatus.completed
        text := some noSpeechSentinel
        language := some "en"
        completedAt := some 3
        errorMessage := none } :=
  (complete_spec { sampleCompleted with status := TranscriptionStatus.processing }
    "   " "en" none none 3).2 rfl

/-- C4 counterexample: `fail` has no status guard, so a COMPLETED
transcription transitions to FAILED — the primary status of a terminal
entity does change, without raising. -/
theorem fail_from_completed_changes_status :
    sampleCompleted.status = TranscriptionStatus.completed ∧
    sampleCompleted.fail "engine crashed" 7 =
      .ok { sampleCompleted with
        status := TranscriptionStatus.failed
        errorMessage := some "engine crashed"
        completedAt := some 7 } := by
  constructor
  · rfl
  · rfl

/-- C4 as amended. From a terminal status (COMPLETED or FAILED),
`mark_as_processing` and `complete` always raise; `fail` is unguarded and
whenever it succeeds it sets the status to FAILED — so a FAILED entity's
status can never change again, but a COMPLETED entity can still be moved
to FAILED by `fail`. -/
theorem terminal_status_transitions (t : Transcription)
    (msg text language : String) (duration processingTime : Option Rat) (now : Nat)
    (hterm : t.status = TranscriptionStatus.completed ∨
      t.status = TranscriptionStatus.failed) :
    (∃ e, t.markAsProcessing = .error e) ∧
    (∃ e, t.complete text language duration processingTime now = .error e) ∧
    (∀ t', t.fail msg now = .ok t' → t'.status = TranscriptionStatus.failed) := by
  refine ⟨?_, ?_, ?_⟩
  · have hne : t.status ≠ TranscriptionStatus.pending := by
      rcases hterm with h | h <;> simp [h]
    unfold Transcription.markAsProcessing
    rw [if_pos hne]
    exact ⟨_, rfl⟩
  · have hne : t.status ≠ TranscriptionStatus.processing := by
      rcases hterm with h | h <;> simp [h]
    unfold Transcription.complete
    rw [if_pos hne]
    exact ⟨_, rfl⟩
  · intro t' h
    unfold Transcription.fail at h
    split at h
    · cases h
    · cases h
      rfl

/-- Witness for C4 as amended: `fail` on a concrete FAILED entity leaves
the status FAILED. -/
theorem terminal_status_transitions_witness :
    Transcription.status
      { sampleCompleted with
        status := TranscriptionStatus.failed,
        errorMessage := some "m",
        completedAt := some 0 } = TranscriptionStatus.failed :=
  (terminal_status_transitions
    { sampleCompleted with status := TranscriptionStatus.failed }
    "m" "x" "en" none none 0 (Or.inr rfl)).2.2 _ rfl

/-- C9. For a non-empty message, `fail_llm_enhancement` sets exactly the two
LLM bookkeeping fields (`llm_enhancement_status = 'failed'`,
`llm_error_message =` the stripped message) and nothing else; an
empty/whitespace message raises and nothing changes. -/
theorem failLlmEnhancement_frame (t : Transcription) (msg : String)
    (hmsg : pyStrip msg ≠ "") :
    t.failLlmEnhancement msg = .ok { t with
      llmEnhancementStatus := some "failed"
      llmErrorMessage := some (pyStrip msg) } ∧
    (∀ msg2 : String, pyStrip msg2 = "" →
      t.failLlmEnhancement msg2 = .error "Error message cannot be empty") := by
  constructor
  · have : ¬ (msg = "" ∨ pyStrip msg = "") := by
      intro h
      rcases h with h | h
      · subst h
        exact hmsg rfl
      · exact hmsg h
    simp [Transcription.failLlmEnhancement, this]
  · intro msg2 h2
    simp [Transcription.failLlmEnhancement, h2]

/-- Witness for C9 at a concrete entity and message. -/
theorem failLlmEnhancement_frame_witness :
    sampleCompleted.failLlmEnhancement " LLM timeout " = .ok { sampleCompleted with
      llmEnhancementStatus := some "failed"
      llmErrorMessage := some "LLM timeout" } :=
  (failLlmEnhancement_frame sampleCompleted " LLM timeout " (by decide)).1


/-! ### Claims about the orchestration use cases -/

/-- C1 counterexample: enhancement-enabled upload whose engine returns
whitespace-only text ends with `llm_enhancement_status = 'failed'` (the
orchestrator calls `mark_llm_processing`, which raises, and the handler
records the failure), not `None` as claimed. -/
theorem transcribe_sentinel_counterexample :
    ((executeTranscribe emptyWorld silentEnv sampleDto "a1" "t1" 0 1 1).2.map
      (fun t => (t.status, t.text, t.llmEnhancementStatus))) =
    .ok (TranscriptionStatus.completed, some noSpeechSentinel, some "failed") := by
  rfl

/-- C6: the use cases never forward `enable_tashkeel` to the LLM port.
Enhancing a transcription whose `enable_tashkeel` flag is set invokes the
port with `enable_tashkeel = False` (the port's declared default): the
probe oracle answers as for `False`, although it answers differently when
actually called with `True`. -/
theorem enhance_drops_tashkeel_flag :
    tashkeelEntity.enableTashkeel = true ∧
    tashkeelProbe "hello world" (some "en") true = .ok "WITH TASHKEEL" ∧
    ((executeEnhance { emptyWorld with transcriptions := [tashkeelEntity] }
        tashkeelProbe "t1" 2).2.map (fun t => t.enhancedText)) =
      .ok (some "WITHOUT TASHKEEL") := by
  exact ⟨rfl, rfl, rfl⟩

/-- C5 counterexample: when the engine raises an exception whose message is
empty, the orchestrator's handler calls `fail("")`, which itself raises, so
`execute` re-raises instead of returning a FAILED transcription. -/
theorem transcribe_error_propagates_counterexample :
    (executeTranscribe emptyWorld { silentEnv with transcribe := .error "" }
        sampleDto "a1" "t1" 0 1 1).2 =
      .error "Error message cannot be empty" := by
  rfl

/-- C1 as amended. For any enhancement-enabled upload that passes
validation and whose engine returns empty/whitespace-only text, the
returned transcription is COMPLETED with the sentinel text, but the
enhancement bookkeeping reads `llm_enhancement_status = 'failed'` (not
None); the LLM port itself is never invoked — the outcome is the same for
every port behaviour. -/
theorem transcribe_sentinel_spec
    (w : World) (env : TranscribeEnv) (dto : AudioUploadDTO)
    (audioId transId : String) (now : Nat) (procTime llmProcTime : Rat)
    (maxMb maxDur : Int) (d : Rat) (res : SpeechResult)
    (hmime : dto.mimeType ∈ supportedAudioTypes)
    (hpos : 0 < dto.fileSize) (hsize : dto.fileSize ≤ maxMb * 1024 * 1024)
    (hex : env.existsAfterSave = true)
    (hdur : env.getAudioDuration = .ok d)
    (hdpos : 0 < d) (hdmax : d ≤ (maxDur : Rat))
    (htr : env.transcribe = .ok res)
    (hstext : pyStrip res.text = "")
    (henh : dto.enableLlmEnhancement = true) :
    ((executeTranscribe w env dto audioId transId now procTime llmProcTime
        maxMb maxDur).2.map
      (fun t => (t.status, t.text, t.llmEnhancementStatus, t.enhancedText))) =
      .ok (TranscriptionStatus.completed, some noSpeechSentinel, some "failed", none) ∧
    (∀ f, executeTranscribe w { env with llm := f } dto audioId transId now
        procTime llmProcTime maxMb maxDur =
      executeTranscribe w env dto audioId transId now procTime llmProcTime
        maxMb maxDur) := by
  have hnsize : ¬ dto.fileSize ≤ 0 := not_le.mpr hpos
  have hnbig : ¬ dto.fileSize > maxMb * 1024 * 1024 := not_lt.mpr hsize
  have hndle : ¬ d ≤ 0 := not_le.mpr hdpos
  have hndbig : ¬ d > (maxDur : Rat) := not_lt.mpr hdmax
  have htext : ¬ (res.text ≠ "" ∧ pyStrip res.text ≠ "") := fun hc => hc.2 hstext
  constructor
  · simp [executeTranscribe, AudioFile.validateFileType, AudioFile.validateFileSize,
      AudioFile.validateDuration, transcribeTryBlock, Transcription.markAsProcessing,
      Transcription.complete, markLlmProcessing_of_cannot,
      Transcription.canBeEnhanced, failLlmEnhancement_cannotEnhanceMsg,
      Except.map, hmime, hnsize, hnbig, hex, hdur, hndle, hndbig,
      htr, htext, henh, noSpeechSentinel]
  · intro f
    simp [executeTranscribe, AudioFile.validateFileType, AudioFile.validateFileSize,
      AudioFile.validateDuration, transcribeTryBlock, Transcription.markAsProcessing,
      Transcription.complete, markLlmProcessing_of_cannot,
      Transcription.canBeEnhanced, failLlmEnhancement_cannotEnhanceMsg,
      hmime, hnsize, hnbig, hex, hdur, hndle, hndbig,
      htr, htext, henh, noSpeechSentinel]

/-- Witness for C1 as amended, at the concrete silent-engine run. -/
theorem transcribe_sentinel_spec_witness :
    ((executeTranscribe emptyWorld silentEnv sampleDto "a1" "t1" 0 1 1).2.map
      (fun t => (t.status, t.text, t.llmEnhancementStatus, t.enhancedText))) =
      .ok (TranscriptionStatus.completed, some noSpeechSentinel, some "failed", none) :=
  (transcribe_sentinel_spec emptyWorld silentEnv sampleDto "a1" "t1" 0 1 1 25 30
    10 { text := "   ", language := "en" } (by decide) (by decide) (by decide)
    rfl rfl (by decide) (by decide) rfl (by decide) rfl).1

/-- C5 as amended. For any upload that passes validation and whose engine
raises an exception with a non-empty (after stripping) message, the
orchestrator does not re-raise: it returns a transcription with
status=FAILED and `error_message` equal to the stripped exception message.
(For an empty message the handler's own `fail("")` raises — see the
counterexample.) -/
theorem transcribe_engine_error_spec
    (w : World) (env : TranscribeEnv) (dto : AudioUploadDTO)
    (audioId transId : String) (now : Nat) (procTime llmProcTime : Rat)
    (maxMb maxDur : Int) (d : Rat) (msg : String)
    (hmime : dto.mimeType ∈ supportedAudioTypes)
    (hpos : 0 < dto.fileSize) (hsize : dto.fileSize ≤ maxMb * 1024 * 1024)
    (hex : env.existsAfterSave = true)
    (hdur : env.getAudioDuration = .ok d)
    (hdpos : 0 < d) (hdmax : d ≤ (maxDur : Rat))
    (htr : env.transcribe = .error msg)
    (hmsg : pyStrip msg ≠ "") :
    ((executeTranscribe w env dto audioId transId now procTime llmProcTime
        maxMb maxDur).2.map (fun t => (t.status, t.errorMessage))) =
      .ok (TranscriptionStatus.failed, some (pyStrip msg)) := by
  have hnsize : ¬ dto.fileSize ≤ 0 := not_le.mpr hpos
  have hnbig : ¬ dto.fileSize > maxMb * 1024 * 1024 := not_lt.mpr hsize
  have hndle : ¬ d ≤ 0 := not_le.mpr hdpos
  have hndbig : ¬ d > (maxDur : Rat) := not_lt.mpr hdmax
  have hne : msg ≠ "" := ((trim_ne_iff msg).2 hmsg).1
  simp [executeTranscribe, AudioFile.validateFileType, AudioFile.validateFileSize,
    AudioFile.validateDuration, transcribeTryBlock, Transcription.markAsProcessing,
    Transcription.fail, Except.map, hmime, hnsize, hnbig, hex, hdur, hndle,
    hndbig, htr, hne, hmsg]

/-- Witness for C5 as amended, at a concrete failing engine. -/
theorem transcribe_engine_error_spec_witness :
    ((executeTranscribe emptyWorld
        { silentEnv with transcribe := .error " engine exploded " }
        sampleDto "a1" "t1" 0 1 1).2.map (fun t => (t.status, t.errorMessage))) =
      .ok (TranscriptionStatus.failed, some (pyStrip " engine exploded ")) :=
  transcribe_engine_error_spec emptyWorld
    { silentEnv with transcribe := .error " engine exploded " }
    sampleDto "a1" "t1" 0 1 1 25 30 10 " engine exploded " (by decide) (by decide)
    (by decide) rfl rfl (by decide) (by decide) rfl (by decide)

/-- C7. If the stored file is missing, duration extraction raises, or the
extracted duration is non-positive or above the ceiling, the just-stored
blob is deleted, a validation error propagates, and no AudioFile or
Transcription entity is persisted: the final state equals the initial one. -/
theorem transcribe_duration_failure_cleanup
    (w : World) (env : TranscribeEnv) (dto : AudioUploadDTO)
    (audioId transId : String) (now : Nat) (procTime llmProcTime : Rat)
    (maxMb maxDur : Int)
    (hmime : dto.mimeType ∈ supportedAudioTypes)
    (hpos : 0 < dto.fileSize) (hsize : dto.fileSize ≤ maxMb * 1024 * 1024)
    (hfresh : env.savePath ∉ w.files)
    (hfail : env.existsAfterSave = false ∨
      (∃ em, env.getAudioDuration = .error em) ∨
      (∃ d, env.getAudioDuration = .ok d ∧ (d ≤ 0 ∨ (maxDur : Rat) < d))) :
    (executeTranscribe w env dto audioId transId now procTime llmProcTime
        maxMb maxDur).1 = w ∧
    ∃ e, (executeTranscribe w env dto audioId transId now procTime llmProcTime
        maxMb maxDur).2 = .error e := by
  have hnsize : ¬ dto.fileSize ≤ 0 := not_le.mpr hpos
  have hnbig : ¬ dto.fileSize > maxMb * 1024 * 1024 := not_lt.mpr hsize
  have herase : (w.files ++ [env.savePath]).erase env.savePath = w.files :=
    erase_append_singleton _ _ hfresh
  by_cases hb : env.existsAfterSave = false
  · have hres : executeTranscribe w env dto audioId transId now procTime
        llmProcTime maxMb maxDur =
        (w, .error ("File was not saved properly: " ++ env.savePath)) := by
      simp [executeTranscribe, AudioFile.validateFileType,
        AudioFile.validateFileSize, hmime, hnsize, hnbig, hb, herase]
    rw [hres]
    exact ⟨rfl, _, rfl⟩
  · have hex : env.existsAfterSave = true := by
      cases hE : env.existsAfterSave
      · exact absurd hE hb
      · rfl
    rcases hfail with hb2 | ⟨em, hdur⟩ | ⟨d, hdur, hbad⟩
    · exact absurd hb2 hb
    · obtain ⟨b, m⟩ := em
      have hres : executeTranscribe w env dto audioId transId now procTime
          llmProcTime maxMb maxDur =
          (w, .error (if b then m
            else "Failed to extract audio duration from " ++ env.savePath ++
              ": " ++ m)) := by
        simp [executeTranscribe, AudioFile.validateFileType,
          AudioFile.validateFileSize, hmime, hnsize, hnbig, hex, hdur, herase]
      rw [hres]
      exact ⟨rfl, _, rfl⟩
    · by_cases hd0 : d ≤ 0
      · have hres : executeTranscribe w env dto audioId transId now procTime
            llmProcTime maxMb maxDur =
            (w, .error "Audio duration must be greater than 0") := by
          simp [executeTranscribe, AudioFile.validateFileType,
            AudioFile.validateFileSize, AudioFile.validateDuration,
            hmime, hnsize, hnbig, hex, hdur, hd0, herase]
        rw [hres]
        exact ⟨rfl, _, rfl⟩
      · have hdlt : (maxDur : Rat) < d := by
          rcases hbad with h | h
          · exact absurd h hd0
          · exact h
        have hres : executeTranscribe w env dto audioId transId now procTime
            llmProcTime maxMb maxDur =
            (w, .error ("Audio duration (" ++ toString d ++ "s) exceeds maximum " ++
              "allowed duration (" ++ toString maxDur ++ "s)")) := by
          simp [executeTranscribe, AudioFile.validateFileType,
            AudioFile.validateFileSize, AudioFile.validateDuration,
            hmime, hnsize, hnbig, hex, hdur, hd0, hdlt, herase]
        rw [hres]
        exact ⟨rfl, _, rfl⟩

/-- Witness for C7: a run whose saved file went missing leaves the state
untouched. -/
theorem transcribe_duration_failure_cleanup_witness :
    (executeTranscribe emptyWorld { silentEnv with existsAfterSave := false }
      sampleDto "a1" "t1" 0 1 1).1 = emptyWorld :=
  (transcribe_duration_failure_cleanup emptyWorld
    { silentEnv with existsAfterSave := false } sampleDto "a1" "t1" 0 1 1 25 30
    (by decide) (by decide) (by decide) (by decide) (Or.inl rfl)).1

/-- C10. For a delete request that resolves (with a consistent parent
audio-file row whose storage path is set): the Transcription row is always
removed and the use case reports success even when deleting the physical
blob fails; the AudioFile row — and, when the blob delete does not fail,
the blob — are removed exactly when the deleted transcription was the only
one referencing that audio file, and are untouched otherwise. -/
theorem deleteTranscription_cascade
    (w : World) (blobDeleteFails : Bool) (tid : String)
    (t : Transcription) (af : AudioFile)
    (hfind : w.transcriptions.find? (fun x => x.id = tid) = some t)
    (haf : w.audioFiles.find? (fun a => a.id = t.audioFileId) = some af)
    (hpath : af.filePath ≠ "") :
    (executeDeleteTranscription w blobDeleteFails tid).2 = .ok true ∧
    (executeDeleteTranscription w blobDeleteFails tid).1.transcriptions =
      w.transcriptions.filter (fun x => x.id ≠ tid) ∧
    ((w.transcriptions.filter (fun x => x.audioFileId = t.audioFileId)).length = 1 →
      (executeDeleteTranscription w blobDeleteFails tid).1.audioFiles =
        w.audioFiles.filter (fun a => a.id ≠ t.audioFileId) ∧
      (executeDeleteTranscription w blobDeleteFails tid).1.files =
        (if blobDeleteFails then w.files else w.files.erase af.filePath)) ∧
    ((w.transcriptions.filter (fun x => x.audioFileId = t.audioFileId)).length ≠ 1 →
      (executeDeleteTranscription w blobDeleteFails tid).1.audioFiles =
        w.audioFiles ∧
      (executeDeleteTranscription w blobDeleteFails tid).1.files = w.files) := by
  by_cases hlen :
      (w.transcriptions.filter (fun x => x.audioFileId = t.audioFileId)).length = 1
  · have hres : executeDeleteTranscription w blobDeleteFails tid =
        ({ files := if blobDeleteFails then w.files else w.files.erase af.filePath,
           audioFiles := w.audioFiles.filter (fun a => a.id ≠ t.audioFileId),
           transcriptions := w.transcriptions.filter (fun x => x.id ≠ tid) },
         .ok true) := by
      cases blobDeleteFails <;>
        simp [executeDeleteTranscription, hfind, hlen, haf, hpath]
    rw [hres]
    exact ⟨rfl, rfl, fun _ => ⟨rfl, rfl⟩, fun h => absurd hlen h⟩
  · have hres : executeDeleteTranscription w blobDeleteFails tid =
        ({ w with transcriptions := w.transcriptions.filter (fun x => x.id ≠ tid) },
         .ok true) := by
      simp [executeDeleteTranscription, hfind, hlen]
    rw [hres]
    exact ⟨rfl, rfl, fun h => absurd h hlen, fun _ => ⟨rfl, rfl⟩⟩

/-- Witness for C10: deleting the only transcription of `a1` succeeds. -/
theorem deleteTranscription_cascade_witness :
    (executeDeleteTranscription memoWorld false "t1").2 = .ok true :=
  (deleteTranscription_cascade memoWorld false "t1" sampleCompleted
    sampleAudioFile rfl rfl (by decide)).1

/-! ### Lemmas for the Retranscribe memoization claim -/

lemma markAsProcessing_sameKey {t t' : Transcription}
    (h : t.markAsProcessing = .ok t') : SameKey t' t := by
  unfold Transcription.markAsProcessing at h
  split at h
  · exact Except.noConfusion h
  · injection h with h
    subst h
    exact ⟨rfl, rfl, rfl⟩

lemma complete_sameKey {t t' : Transcription} {text language : String}
    {duration processingTime : Option Rat} {now : Nat}
    (h : t.complete text language duration processingTime now = .ok t') :
    SameKey t' t := by
  unfold Transcription.complete at h
  split at h
  · exact Except.noConfusion h
  · injection h with h
    subst h
    exact ⟨rfl, rfl, rfl⟩

lemma fail_sameKey {t t' : Transcription} {msg : String} {now : Nat}
    (h : t.fail msg now = .ok t') : SameKey t' t := by
  unfold Transcription.fail at h
  split at h
  · exact Except.noConfusion h
  · injection h with h
    subst h
    exact ⟨rfl, rfl, rfl⟩

lemma markLlmProcessing_sameKey {t t' : Transcription}
    (h : t.markLlmProcessing = .ok t') : SameKey t' t := by
  unfold Transcription.markLlmProcessing at h
  split at h
  · exact Except.noConfusion h
  · injection h with h
    subst h
    exact ⟨rfl, rfl, rfl⟩

lemma completeLlmEnhancement_sameKey {t t' : Transcription}
    {enhancedText : String} {processingTime : Rat}
    (h : t.completeLlmEnhancement enhancedText processingTime = .ok t') :
    SameKey t' t := by
  unfold Transcription.completeLlmEnhancement at h
  split at h
  · exact Except.noConfusion h
  · split at h
    · exact Except.noConfusion h
    · injection h with h
      subst h
      exact ⟨rfl, rfl, rfl⟩

lemma failLlmEnhancement_sameKey {t t' : Transcription} {msg : String}
    (h : t.failLlmEnhancement msg = .ok t') : SameKey t' t := by
  unfold Transcription.failLlmEnhancement at h
  split at h
  · exact Except.noConfusion h
  · injection h with h
    subst h
    exact ⟨rfl, rfl, rfl⟩

lemma SameKey.trans {a b c : Transcription}
    (h1 : SameKey a b) (h2 : SameKey b c) : SameKey a c :=
  ⟨h1.1.trans h2.1, h1.2.1.trans h2.2.1, h1.2.2.trans h2.2.2⟩

lemma updateTranscription_append (w : World) (old : List Transcription)
    (t x : Transcription) (hw : w.transcriptions = old ++ [t])
    (hid : x.id = t.id) (hfresh : t.id ∉ old.map (fun y => y.id)) :
    (w.updateTranscription x).transcriptions = old ++ [x] ∧
    (w.updateTranscription x).audioFiles = w.audioFiles ∧
    (w.updateTranscription x).files = w.files := by
  refine ⟨?_, rfl, rfl⟩
  show (w.transcriptions.map (fun y => if y.id = x.id then x else y)) = old ++ [x]
  rw [hw, List.map_append]
  have hone : [t].map (fun y => if y.id = x.id then x else y) = [x] := by
    simp [hid.symm]
  have hmap : old.map (fun y => if y.id = x.id then x else y) = old := by
    have hcong : ∀ y ∈ old, (if y.id = x.id then x else y) = y := by
      intro y hy
      rw [if_neg]
      intro he
      exact hfresh (by
        rw [← hid, ← he]
        exact List.mem_map_of_mem _ hy)
    calc old.map (fun y => if y.id = x.id then x else y)
        = old.map id := List.map_congr_left hcong
      _ = old := List.map_id old
  rw [hone, hmap]

lemma find?_append_none {α : Type} (p : α → Bool) (l1 l2 : List α)
    (h : l1.find? p = none) : (l1 ++ l2).find? p = l2.find? p := by
  induction l1 with
  | nil => rfl
  | cons a l ih =>
    by_cases hpa : p a
    · rw [List.find?_cons_of_pos _ hpa] at h
      exact Option.noConfusion h
    · rw [List.find?_cons_of_neg _ hpa] at h
      rw [List.cons_append, List.find?_cons_of_neg _ hpa]
      exact ih h

/-- Invariant of the Retranscribe `try` block: the audio-file table and
blob store are untouched; the transcription table stays `old ++ [x]` for
some row with the new id; and any returned entity keeps the new id, the
audio-file reference and the model. -/
lemma retranscribeTryBlock_spec (w : World) (old : List Transcription)
    (t0 : Transcription) (env : RetranscribeEnv) (af : AudioFile) (el : Bool)
    (now : Nat) (p lp : Rat)
    (hw : w.transcriptions = old ++ [t0])
    (hfresh : t0.id ∉ old.map (fun y => y.id)) :
    (retranscribeTryBlock w t0 env af el now p lp).1.audioFiles = w.audioFiles ∧
    (retranscribeTryBlock w t0 env af el now p lp).1.files = w.files ∧
    (∃ x, x.id = t0.id ∧
      (retranscribeTryBlock w t0 env af el now p lp).1.transcriptions = old ++ [x]) ∧
    (∀ t, (retranscribeTryBlock w t0 env af el now p lp).2 = .ok t →
      SameKey t t0) := by
  unfold retranscribeTryBlock
  rcases h1 : t0.markAsProcessing with e1 | t1
  · dsimp only
    refine ⟨rfl, rfl, ⟨t0, rfl, hw⟩, ?_⟩
    intro t ht
    exact fail_sameKey ht
  · dsimp only
    have hk1 : SameKey t1 t0 := markAsProcessing_sameKey h1
    have hup1 := updateTranscription_append w old t0 t1 hw hk1.1 hfresh
    rcases h2 : env.transcribe with e2 | res
    · dsimp only
      refine ⟨hup1.2.1, hup1.2.2, ⟨t1, hk1.1, hup1.1⟩, ?_⟩
      intro t ht
      exact (fail_sameKey ht).trans hk1
    · dsimp only
      rcases h3 : t1.complete res.text res.language
          (some (pyOrRat res.duration (pyOrRat af.durationSeconds 0)))
          (some p) now with e3 | t2
      · dsimp only
        refine ⟨hup1.2.1, hup1.2.2, ⟨t1, hk1.1, hup1.1⟩, ?_⟩
        intro t ht
        exact (fail_sameKey ht).trans hk1
      · dsimp only
        have hk2 : SameKey t2 t0 := (complete_sameKey h3).trans hk1
        cases el
        · rw [if_neg (by decide : ¬ ((false : Bool) = true))]
          refine ⟨hup1.2.1, hup1.2.2, ⟨t1, hk1.1, hup1.1⟩, ?_⟩
          intro t ht
          injection ht with ht
          subst ht
          exact hk2
        · rw [if_pos rfl]
          rcases h4 : t2.markLlmProcessing with e4 | t3
          · dsimp only
            rcases h5 : t2.failLlmEnhancement e4 with e5 | t3
            · dsimp only
              refine ⟨hup1.2.1, hup1.2.2, ⟨t1, hk1.1, hup1.1⟩, ?_⟩
              intro t ht
              exact (fail_sameKey ht).trans hk2
            · dsimp only
              refine ⟨hup1.2.1, hup1.2.2, ⟨t1, hk1.1, hup1.1⟩, ?_⟩
              intro t ht
              injection ht with ht
              subst ht
              exact (failLlmEnhancement_sameKey h5).trans hk2
          · dsimp only
            have hk3 : SameKey t3 t0 := (markLlmProcessing_sameKey h4).trans hk2
            have hup2 := updateTranscription_append
              (w.updateTranscription t1) old t1 t3
              hup1.1 (hk3.1.trans hk1.1.symm)
              (by rw [hk1.1]; exact hfresh)
            have haf2 : ((w.updateTranscription t1).updateTranscription t3).audioFiles
                = w.audioFiles := hup2.2.1.trans hup1.2.1
            have hfi2 : ((w.updateTranscription t1).updateTranscription t3).files
                = w.files := hup2.2.2.trans hup1.2.2
            rcases h6 : env.llm (t3.text.getD "") t3.language false with e6 | enhanced
            · dsimp only
              rcases h7 : t3.failLlmEnhancement e6 with e7 | t4
              · dsimp only
                refine ⟨haf2, hfi2, ⟨t3, hk3.1, hup2.1⟩, ?_⟩
                intro t ht
                exact (fail_sameKey ht).trans hk3
              · dsimp only
                refine ⟨haf2, hfi2, ⟨t3, hk3.1, hup2.1⟩, ?_⟩
                intro t ht
                injection ht with ht
                subst ht
                exact (failLlmEnhancement_sameKey h7).trans hk3
            · dsimp only
              rcases h8 : t3.completeLlmEnhancement enhanced lp with e8 | t4
              · dsimp only
                rcases h9 : t3.failLlmEnhancement e8 with e9 | t4
                · dsimp only
                  refine ⟨haf2, hfi2, ⟨t3, hk3.1, hup2.1⟩, ?_⟩
                  intro t ht
                  exact (fail_sameKey ht).trans hk3
                · dsimp only
                  refine ⟨haf2, hfi2, ⟨t3, hk3.1, hup2.1⟩, ?_⟩
                  intro t ht
                  injection ht with ht
                  subst ht
                  exact (failLlmEnhancement_sameKey h9).trans hk3
              · dsimp only
                refine ⟨haf2, hfi2, ⟨t3, hk3.1, hup2.1⟩, ?_⟩
                intro t ht
                injection ht with ht
                subst ht
                exact (completeLlmEnhancement_sameKey h8).trans hk3

/-- C8. Request-level memoization of Retranscribe on
(audio_file_id, model, COMPLETED): (i) if a COMPLETED transcription with
the requested model already exists for the audio file, the use case
returns it unchanged and creates nothing; (ii) hence a second Retranscribe
call after a first call that returned a COMPLETED transcription returns
the same entity (same id) and leaves the state untouched. -/
theorem retranscribe_memoization :
    (∀ (w : World) (env : RetranscribeEnv) (afId model : String)
       (lang : Option String) (el : Bool) (newId : String) (now : Nat)
       (p lp : Rat) (e : Transcription),
       (w.transcriptions.filter (fun t => t.audioFileId = afId)).find?
         (fun t => t.model = some model ∧ t.status = TranscriptionStatus.completed)
         = some e →
       (∃ af, w.audioFiles.find? (fun a => a.id = afId) = some af) →
       executeRetranscribe w env afId model lang el newId now p lp = (w, .ok e)) ∧
    (∀ (w : World) (env1 env2 : RetranscribeEnv) (afId model : String)
       (lang1 lang2 : Option String) (el1 el2 : Bool) (id1 id2 : String)
       (now1 now2 : Nat) (p1 p2 lp1 lp2 : Rat) (tr : Transcription),
       id1 ∉ w.transcriptions.map (fun y => y.id) →
       (executeRetranscribe w env1 afId model lang1 el1 id1 now1 p1 lp1).2 = .ok tr →
       tr.status = TranscriptionStatus.completed →
       executeRetranscribe
           (executeRetranscribe w env1 afId model lang1 el1 id1 now1 p1 lp1).1
           env2 afId model lang2 el2 id2 now2 p2 lp2
         = ((executeRetranscribe w env1 afId model lang1 el1 id1 now1 p1 lp1).1,
            .ok tr)) := by
  constructor
  · intro w env afId model lang el newId now p lp e hfind haf
    obtain ⟨af, haf⟩ := haf
    simp only [executeRetranscribe]
    rw [haf]
    dsimp only
    rw [hfind]
  · intro w env1 env2 afId model lang1 lang2 el1 el2 id1 id2 now1 now2
      p1 p2 lp1 lp2 tr hfresh hok hst
    rcases haf : w.audioFiles.find? (fun a => a.id = afId) with _ | af
    · have hc0 : executeRetranscribe w env1 afId model lang1 el1 id1 now1 p1 lp1
          = (w, .error ("Audio file " ++ afId ++ " not found")) := by
        simp only [executeRetranscribe]
        rw [haf]
      rw [hc0] at hok
      exact Except.noConfusion hok
    · rcases hfind : (w.transcriptions.filter (fun t => t.audioFileId = afId)).find?
          (fun t => t.model = some model ∧ t.status = TranscriptionStatus.completed)
          with _ | e
      · -- no completed row yet: the first call creates and processes one
        rcases hrb : retranscribeTryBlock
            { w with transcriptions := w.transcriptions ++
              [{ id := id1, audioFileId := af.id, text := none,
                 status := TranscriptionStatus.pending, language := lang1,
                 durationSeconds := pyOrRat af.durationSeconds 0,
                 createdAt := now1, completedAt := none, errorMessage := none,
                 model := some model, enableLlmEnhancement := el1 }] }
            { id := id1, audioFileId := af.id, text := none,
              status := TranscriptionStatus.pending, language := lang1,
              durationSeconds := pyOrRat af.durationSeconds 0,
              createdAt := now1, completedAt := none, errorMessage := none,
              model := some model, enableLlmEnhancement := el1 }
            env1 af el1 now1 p1 lp1 with ⟨w2, r⟩
        have hc1 : executeRetranscribe w env1 afId model lang1 el1 id1 now1 p1 lp1
            = (match ((w2, r) : World × Except String Transcription) with
               | (a, .ok t) => (a.updateTranscription t, .ok t)
               | (a, .error e) => (a, .error e)) := by
          simp only [executeRetranscribe]
          rw [haf]
          dsimp only
          rw [hfind]
          dsimp only
          rw [hrb]
        rcases r with e | t
        · rw [hc1] at hok
          exact Except.noConfusion hok
        · dsimp only at hc1
          rw [hc1] at hok
          have hok2 : t = tr := by
            injection hok
          subst hok2
          have hspec := retranscribeTryBlock_spec
            { w with transcriptions := w.transcriptions ++
              [{ id := id1, audioFileId := af.id, text := none,
                 status := TranscriptionStatus.pending, language := lang1,
                 durationSeconds := pyOrRat af.durationSeconds 0,
                 createdAt := now1, completedAt := none, errorMessage := none,
                 model := some model, enableLlmEnhancement := el1 }] }
            w.transcriptions
            { id := id1, audioFileId := af.id, text := none,
              status := TranscriptionStatus.pending, language := lang1,
              durationSeconds := pyOrRat af.durationSeconds 0,
              createdAt := now1, completedAt := none, errorMessage := none,
              model := some model, enableLlmEnhancement := el1 }
            env1 af el1 now1 p1 lp1 rfl hfresh
          rw [hrb] at hspec
          obtain ⟨haf2, hfi2, ⟨x, hxid, hxw⟩, hkey⟩ := hspec
          have hkt : SameKey t
              { id := id1, audioFileId := af.id, text := none,
                status := TranscriptionStatus.pending, language := lang1,
                durationSeconds := pyOrRat af.durationSeconds 0,
                createdAt := now1, completedAt := none, errorMessage := none,
                model := some model, enableLlmEnhancement := el1 } :=
            hkey t rfl
          have hupf := updateTranscription_append w2
            w.transcriptions x t hxw
            (hkt.1.trans hxid.symm)
            (by rw [hxid]; exact hfresh)
          have hafid : af.id = afId := by
            have := List.find?_some haf
            exact of_decide_eq_true this
          have haf3 : (w2.updateTranscription t).audioFiles.find?
              (fun a => a.id = afId) = some af := by
            rw [hupf.2.1, haf2]
            exact haf
          have htid : t.audioFileId = afId := by
            rw [hkt.2.1]
            exact hafid
          have hfilter : (w2.updateTranscription t).transcriptions.filter
              (fun x => x.audioFileId = afId)
              = (w.transcriptions.filter (fun x => x.audioFileId = afId)) ++ [t] := by
            rw [hupf.1, List.filter_append]
            simp [htid]
          have hm : t.model = some model := hkt.2.2
          have hfind2 : ((w2.updateTranscription t).transcriptions.filter
              (fun x => x.audioFileId = afId)).find?
              (fun x => x.model = some model ∧
                x.status = TranscriptionStatus.completed) = some t := by
            rw [hfilter, find?_append_none _ _ _ hfind]
            simp [List.find?_cons, hm, hst]
          rw [hc1]
          simp only [executeRetranscribe]
          rw [haf3]
          dsimp only
          rw [hfind2]
      · -- memoized: the first call already returned the existing row
        have hc1 : executeRetranscribe w env1 afId model lang1 el1 id1 now1 p1 lp1
            = (w, .ok e) := by
          simp only [executeRetranscribe]
          rw [haf]
          dsimp only
          rw [hfind]
        rw [hc1] at hok
        have hok2 : e = tr := by
          injection hok
        subst hok2
        rw [hc1]
        simp only [executeRetranscribe]
        rw [haf]
        dsimp only
        rw [hfind]

/-- Witness for C8: memoized lookup in a populated state, and a fresh
retranscription followed by an idempotent second call. -/
theorem retranscribe_memoization_witness :
    executeRetranscribe memoWorld sampleRetransEnv "a1" "base" none false "u2" 0 1 1
      = (memoWorld, .ok sampleCompleted) ∧
    executeRetranscribe
        (executeRetranscribe freshWorld sampleRetransEnv "a1" "base" none false
          "u1" 0 1 1).1
        sampleRetransEnv "a1" "base" none false "u2" 5 2 2
      = ((executeRetranscribe freshWorld sampleRetransEnv "a1" "base" none false
          "u1" 0 1 1).1, .ok retransResult) := by
  constructor
  · exact (retranscribe_memoization).1 memoWorld sampleRetransEnv "a1" "base"
      none false "u2" 0 1 1 sampleCompleted (by rfl) ⟨sampleAudioFile, by rfl⟩
  · exact (retranscribe_memoization).2 freshWorld sampleRetransEnv sampleRetransEnv
      "a1" "base" none none false false "u1" "u2" 0 5 1 2 1 2 retransResult
      (by decide) (by rfl) rfl
